import Mathlib

/-!
Verification of the HR analytics dashboard
(`enhanced_visualization_dashboard.py`).

The development shallowly embeds the dashboard's data model and the
operations the specification talks about:

* a `Table` is an ordered list of column names together with row-aligned
  lists of cell values (`Val`: string, integer, parsed date, or null/NaN);
* the four column detectors (`detect_department_column`, …) are pure
  functions over the list of column names, translated clause by clause
  from the source;
* the aggregations are modelled exactly as the pandas pipeline computes
  them: `value_counts` (null-excluding counts, ordered by descending
  count), percentage `round(count/total*100, 1)` (modelled as exact
  rational arithmetic with numpy's scale-by-ten round-half-to-even,
  stored as an integer number of tenths), label strings, then the
  explicit ascending count sort used by the bar charts;
* chart builders return `Except AggError` values: a `KeyError` from a
  missing column is `AggError.invalidColumn`, and the `TypeError` raised
  by the donut builder's string concatenation over non-string categories
  is `AggError.typeMismatch`;
* the render pass of `main` (pre-processing, detection, filtering,
  metric tiles, the four chart slots, and the final table view) is one
  function `renderPass`.
-/

/-- ASCII lower-casing of one character, the fragment of Python's
`str.lower` exercised by the dashboard's ASCII column names. -/
def lowerChar (c : Char) : Char := Char.toLower c

/-- Lower-cased character list of a string (models `str(col).lower()`). -/
def lowerList (s : String) : List Char := s.toList.map lowerChar

/-- Does the second list start with the first one? -/
def startsWithCh : List Char → List Char → Bool
  | [], _ => true
  | _ :: _, [] => false
  | p :: ps, c :: cs => p == c && startsWithCh ps cs

/-- Substring test over character lists (Python's `pat in s`). -/
def hasSub (pat : List Char) : List Char → Bool
  | [] => pat.isEmpty
  | c :: cs => startsWithCh pat (c :: cs) || hasSub pat cs

/-- Is the (already lower-case) keyword `kw` a substring of the
lower-cased `name`?  Models `kw in str(col).lower()`. -/
def kwIn (kw : String) (name : String) : Bool := hasSub kw.toList (lowerList name)

/-- Case-sensitive substring test on raw names
(models Python's `'Pers' in str(col)`). -/
def subIn (pat : String) (name : String) : Bool := hasSub pat.toList name.toList

/-- Case-sensitive suffix test (Python's `str.endswith`). -/
def endsWithStr (s pat : String) : Bool :=
  startsWithCh pat.toList.reverse s.toList.reverse

/-- Cell values of a table: strings, integers, parsed dates (only the
calendar year matters to the dashboard) and null (pandas `NaN`/`NaT`). -/
inductive Val where
  | str (s : String)
  | int (z : Int)
  | date (year : Int)
  | null
deriving DecidableEq, Repr

/-- Python's `str()` of a cell as produced by `astype(str)`:
strings unchanged, integers printed, `NaN` becomes the string `"nan"`,
datetimes are abbreviated to their year here. -/
def pyStr : Val → String
  | .str s => s
  | .int z => toString z
  | .date y => toString y
  | .null => "nan"

/-- A data frame: ordered column names plus row-aligned rows of cells. -/
structure Table where
  names : List String
  rows : List (List Val)
deriving DecidableEq, Repr

/-- First index of a column name (pandas column lookup; `none` models the
`KeyError` raised for an absent column). -/
def findIdx (c : String) : List String → Option Nat
  | [] => none
  | n :: ns => if n = c then some 0 else (findIdx c ns).map (· + 1)

/-- Column `i` of a table as a list of cells. -/
def colAt (t : Table) (i : Nat) : List Val :=
  t.rows.map (fun r => r.getD i Val.null)

/- ----------------------------------------------------------------
Column Detector (source lines 127-174): per semantic role, exact
canonical names first, then the first column whose lower-cased name
satisfies the role's keyword rule.
---------------------------------------------------------------- -/

/-- Source `detect_department_column` (lines 127-138). -/
def detect_department_column (names : List String) : Option String :=
  if names.contains "Department" then some "Department"
  else if names.contains "Organizational Unit" then some "Organizational Unit"
  else names.find? (fun c =>
    kwIn "department" c || kwIn "dept" c || kwIn "org" c || kwIn "unit" c)

/-- Source `detect_job_family_column` (lines 141-150). -/
def detect_job_family_column (names : List String) : Option String :=
  if names.contains "Job Family" then some "Job Family"
  else names.find? (fun c =>
    kwIn "job" c && (kwIn "family" c || kwIn "role" c || kwIn "position" c))

/-- Source `detect_employee_group_column` (lines 153-162). -/
def detect_employee_group_column (names : List String) : Option String :=
  if names.contains "Employee Group" then some "Employee Group"
  else names.find? (fun c =>
    (kwIn "employee" c && kwIn "group" c) || kwIn "employeegroup" c || kwIn "emp group" c)

/-- Source `detect_joining_date_column` (lines 165-174). -/
def detect_joining_date_column (names : List String) : Option String :=
  if names.contains "Joining Date" then some "Joining Date"
  else names.find? (fun c =>
    (kwIn "join" c || kwIn "hire" c || kwIn "start" c) && kwIn "date" c)

/-- The four semantic roles of the specification. -/
inductive Role where
  | OrgUnit
  | RoleFamily
  | EmployeeCategory
  | HireDate
deriving DecidableEq, Repr

/-- Canonical exact-match names per role, in the order the source checks
them. -/
def canonicals : Role → List String
  | .OrgUnit => ["Department", "Organizational Unit"]
  | .RoleFamily => ["Job Family"]
  | .EmployeeCategory => ["Employee Group"]
  | .HireDate => ["Joining Date"]

/-- The Detector of the specification, dispatching to the four source
functions. -/
def detect : Role → List String → Option String
  | .OrgUnit, names => detect_department_column names
  | .RoleFamily, names => detect_job_family_column names
  | .EmployeeCategory, names => detect_employee_group_column names
  | .HireDate, names => detect_joining_date_column names

/-- The first canonical name of `role` (in the source's checking order)
that occurs in `names`. -/
def firstCanon (role : Role) (names : List String) : Option String :=
  (canonicals role).find? (fun x => names.contains x)

/- ----------------------------------------------------------------
Aggregator: the `value_counts` / percentage / label pipeline shared by
the three categorical charts (source lines 209-222, 261-271, 316-325),
and the year grouping of the tenure trend (source lines 367-374).
---------------------------------------------------------------- -/

/-- Occurrences of `v` in a list (pandas per-value count). -/
def cnt [DecidableEq α] (v : α) : List α → Nat
  | [] => 0
  | w :: t => (if w = v then 1 else 0) + cnt v t

/-- Distinct elements of a list in order of first occurrence. -/
def uniqFirst [DecidableEq α] : List α → List α
  | [] => []
  | v :: t => v :: (uniqFirst t).filter (fun w => w ≠ v)

/-- Non-null cells of a column (`value_counts` and `dropna` exclude
pandas `NaN`). -/
def nonNull (cells : List Val) : List Val :=
  cells.filterMap (fun v => if v = Val.null then none else some v)

/-- Round `a / b` to the nearest integer, ties to even — numpy's
`rint`, the rounding inside `Series.round`.  Only used with `0 < b`. -/
def roundHalfEvenDiv (a b : Nat) : Nat :=
  let f := a / b
  let r := a % b
  if 2 * r < b then f
  else if b < 2 * r then f + 1
  else if f % 2 = 0 then f else f + 1

/-- The percentage `round(count/total*100, 1)` of the source, held
exactly as an integer number of tenths of a percent (so `167` stands
for the one-decimal float `16.7`). -/
def pctTenths (count total : Nat) : Nat :=
  roundHalfEvenDiv (1000 * count) total

/-- Decimal rendering of a tenths value, matching Python's `str()` of
the rounded one-decimal float (`167 ↦ "16.7"`, `1000 ↦ "100.0"`). -/
def fmtTenth (n : Nat) : String :=
  toString (n / 10) ++ "." ++ toString (n % 10)

/-- One row of an `AggregationResult`: a distinct non-null category,
its count, and its rounded percentage in tenths. -/
structure AggRow where
  category : Val
  count : Nat
  pctTenths : Nat
deriving DecidableEq, Repr

/-- The rounded percentage of a row as a rational number. -/
def AggRow.percentage (r : AggRow) : ℚ := (r.pctTenths : ℚ) / 10

/-- Descending-count order used by `value_counts`. -/
def descCount (a b : AggRow) : Prop := b.count ≤ a.count

instance : DecidableRel descCount := fun a b => Nat.decLe b.count a.count

instance : IsTotal AggRow descCount := ⟨fun a b => Nat.le_total b.count a.count⟩

instance : IsTrans AggRow descCount :=
  ⟨fun _ _ _ h1 h2 => Nat.le_trans h2 h1⟩

/-- The distinct non-null values paired with their counts, as
`value_counts` computes them before its descending sort. -/
def countedOf (vals : List Val) : List (Val × Nat) :=
  (uniqFirst vals).map (fun v => (v, cnt v vals))

/-- The denominator of the percentages: `counts.sum()` of the source. -/
def totalOf (vals : List Val) : Nat :=
  ((countedOf vals).map (fun p => p.2)).sum

/-- The aggregation rows before `value_counts`' descending-count order
is applied. -/
def rawRows (vals : List Val) : List AggRow :=
  (countedOf vals).map (fun p => AggRow.mk p.1 p.2 (pctTenths p.2 (totalOf vals)))

/-- The `countBy` aggregation of the specification, translated from the
pipeline the three categorical chart builders share: `value_counts`
(null-excluding counts of the distinct values, ordered by descending
count), `total = counts.sum()`, and
`percentage = (count/total*100).round(1)`
(source lines 211-216 / 263-268 / 317-322). -/
def countBy (cells : List Val) : List AggRow :=
  List.insertionSort descCount (rawRows (nonNull cells))

/-- Sum of the rounded percentages of an aggregation result. -/
def sumPct (rows : List AggRow) : ℚ := (rows.map AggRow.percentage).sum

/-- A column with six distinct values, one row each: every percentage
rounds `16.666…` up to `16.7`. -/
def cellsSix : List Val :=
  [Val.str "A", Val.str "B", Val.str "C", Val.str "D", Val.str "E", Val.str "F"]

/- ----------------------------------------------------------------
`countByYear` (source lines 367-374): `pd.to_datetime(errors='coerce')`
turns unparsable cells into `NaT` (modelled by the per-cell parse
outcome `none`), `.dt.year` extracts the year, and
`groupby('Join Year').size()` counts per year, silently dropping the
`NaN` keys and sorting the group keys ascending.
---------------------------------------------------------------- -/

/-- Ascending order on `(year, count)` pairs (pandas `groupby` sorts
its keys ascending). -/
def yearLe (a b : Int × Nat) : Prop := a.1 ≤ b.1

instance : DecidableRel yearLe := fun a b => Int.decLe a.1 b.1

instance : IsTotal (Int × Nat) yearLe := ⟨fun a b => Int.le_total a.1 b.1⟩

instance : IsTrans (Int × Nat) yearLe := ⟨fun _ _ _ h1 h2 => le_trans h1 h2⟩

/-- Year histogram over the per-cell parse outcomes of a date column:
rows whose cell failed to parse (`none`, pandas `NaT`) are dropped,
the remaining years are counted, and the result is sorted ascending
by year. -/
def countByYear (parsed : List (Option Int)) : List (Int × Nat) :=
  let years := parsed.filterMap id
  List.insertionSort yearLe ((uniqFirst years).map (fun y => (y, cnt y years)))

/-- Failures of the aggregation layer: `invalidColumn` models the
pandas `KeyError` on an absent column, `typeMismatch` the `TypeError`
of string-concatenating a non-string category column. -/
inductive AggError where
  | invalidColumn
  | typeMismatch
deriving DecidableEq, Repr

/-- Table-level `countBy`: fails with `invalidColumn` when the
column is absent (source: `df[col]` raising `KeyError`). -/
def countByTable (t : Table) (c : String) : Except AggError (List AggRow) :=
  match findIdx c t.names with
  | none => .error .invalidColumn
  | some i => .ok (countBy (colAt t i))

/-- Table-level `countByYear`, failing with `invalidColumn` on an
absent column. -/
def countByYearTable (t : Table) (c : String) (parse : Val → Option Int) :
    Except AggError (List (Int × Nat)) :=
  match findIdx c t.names with
  | none => .error .invalidColumn
  | some i => .ok (countByYear ((colAt t i).map parse))

/- ----------------------------------------------------------------
Chart builders (source lines 204-404).
---------------------------------------------------------------- -/

/-- An aggregation row carrying its display label (the `'Label'` column
the bar builders add). -/
structure LRow where
  category : Val
  count : Nat
  pctTenths : Nat
  label : String
deriving DecidableEq, Repr

/-- The bar-context label `"<count> (<percentage>%)"` (source lines
219 and 325). -/
def barLabel (r : AggRow) : String :=
  toString r.count ++ " (" ++ fmtTenth r.pctTenths ++ "%)"

/-- Attach the bar label to an aggregation row. -/
def labelRow (r : AggRow) : LRow :=
  LRow.mk r.category r.count r.pctTenths (barLabel r)

/-- Ascending-count order of the bar builders' final
`sort_values('Count', ascending=True)` (source lines 222 and 328). -/
def ascCountL (a b : LRow) : Prop := a.count ≤ b.count

instance : DecidableRel ascCountL := fun a b => Nat.decLe a.count b.count

instance : IsTotal LRow ascCountL := ⟨fun a b => Nat.le_total a.count b.count⟩

instance : IsTrans LRow ascCountL := ⟨fun _ _ _ h1 h2 => Nat.le_trans h1 h2⟩

/-- A horizontal bar chart: labelled rows in ascending count order and
a title. -/
structure BarFig where
  rows : List LRow
  title : String
deriving DecidableEq, Repr

/-- Source `create_employees_by_department` (lines 204-253): `countBy`
on the department column, bar labels, then the ascending count sort. -/
def create_employees_by_department (t : Table) (c : String) :
    Except AggError BarFig :=
  match findIdx c t.names with
  | none => .error .invalidColumn
  | some i =>
      .ok (BarFig.mk
        (List.insertionSort ascCountL ((countBy (colAt t i)).map labelRow))
        ("Employees by " ++ c))

/-- Source `create_talent_distribution` (lines 310-359): the same bar
pipeline over the job-family column. -/
def create_talent_distribution (t : Table) (c : String) :
    Except AggError BarFig :=
  match findIdx c t.names with
  | none => .error .invalidColumn
  | some i =>
      .ok (BarFig.mk
        (List.insertionSort ascCountL ((countBy (colAt t i)).map labelRow))
        ("Headcount by " ++ c))

/-- The donut label of one row (source line 271):
`category + '<br>' + count + ' (' + percentage + '%)'`.  The pandas
string concatenation raises `TypeError` when the category is not a
string. -/
def donutLabelCell (r : AggRow) : Except AggError String :=
  match r.category with
  | .str s =>
      .ok (s ++ "<br>" ++ toString r.count ++ " (" ++ fmtTenth r.pctTenths ++ "%)")
  | _ => .error .typeMismatch

/-- The `'Label'` column of the donut builder, failing as the pandas
element-wise concatenation does when any category is non-string. -/
def buildLabels : List AggRow → Except AggError (List String)
  | [] => .ok []
  | r :: rs =>
      match donutLabelCell r with
      | .error e => .error e
      | .ok s =>
          match buildLabels rs with
          | .error e => .error e
          | .ok ss => .ok (s :: ss)

/-- A donut chart: rows in `value_counts` order, their labels, and a
title. -/
structure PieFig where
  rows : List AggRow
  labels : List String
  title : String
deriving DecidableEq, Repr

/-- Source `create_employee_group_split` (lines 256-307): `countBy`
over the employee-group column, kept in `value_counts` order, plus the
`'<br>'`-separated labels. -/
def create_employee_group_split (t : Table) (c : String) :
    Except AggError PieFig :=
  match findIdx c t.names with
  | none => .error .invalidColumn
  | some i =>
      match buildLabels (countBy (colAt t i)) with
      | .error e => .error e
      | .ok ls => .ok (PieFig.mk (countBy (colAt t i)) ls (c ++ " Split"))

/-- A line chart of hires per year: the year series, the per-point
display texts (`texttemplate='%{y}'`, source line 396), and a title. -/
structure TrendFig where
  series : List (Int × Nat)
  pointTexts : List String
  title : String
deriving DecidableEq, Repr

/-- Overwrite column `i` of every row with the given cells. -/
def setColAt (t : Table) (i : Nat) (cells : List Val) : Table :=
  Table.mk t.names ((t.rows.zip cells).map (fun p => p.1.set i p.2))

/-- Pandas column assignment `df[c] = cells`: overwrite the column when
it exists, append a new one otherwise. -/
def setOrAddCol (t : Table) (c : String) (cells : List Val) : Table :=
  match findIdx c t.names with
  | some i => setColAt t i cells
  | none => Table.mk (t.names ++ [c]) ((t.rows.zip cells).map (fun p => p.1 ++ [p.2]))

/-- Source `create_tenure_trend` (lines 362-404).  Besides building the
year series it mutates the frame it is given: `df[col] =
pd.to_datetime(df[col], errors='coerce')` rewrites the date column
(the source skips this assignment when the column already has datetime
dtype, in which case `to_datetime` is the identity and the assignment
is a no-op, so the general branch is modelled), and `df['Join Year'] =
...` adds the year column.  The mutated table is returned alongside
the figure. -/
def create_tenure_trend (t : Table) (c : String) (parse : Val → Option Int) :
    Except AggError (TrendFig × Table) :=
  match findIdx c t.names with
  | none => .error .invalidColumn
  | some i =>
      let parsed := (colAt t i).map parse
      let t1 := setColAt t i (parsed.map (fun o => match o with
          | some y => Val.date y
          | none => Val.null))
      let t2 := setOrAddCol t1 "Join Year" (parsed.map (fun o => match o with
          | some y => Val.int y
          | none => Val.null))
      let series := countByYear parsed
      .ok (TrendFig.mk series (series.map (fun p => toString p.2))
        "Hiring Trend Over Years", t2)

/- ----------------------------------------------------------------
Pre-processing, filtering, and the render pass of `main`
(source lines 407-600).
---------------------------------------------------------------- -/

/-- One row of the pre-processing loop (source lines 442-445): every
cell whose column name contains the case-sensitive substring `"Pers"`
is coerced with `astype(str)`; other cells are untouched.  The special
`'Pers.No.'` branch of lines 437-439 is subsumed by this loop. -/
def stringifyRow : List String → List Val → List Val
  | n :: ns, v :: vs =>
      (if subIn "Pers" n then Val.str (pyStr v) else v) :: stringifyRow ns vs
  | _, vs => vs

/-- The pre-processing of `main` (source lines 431-451): `astype(str)`
on every `"Pers"` column; the final `[str(col) for col in columns]`
is the identity here because column names are modelled as strings. -/
def preprocess (t : Table) : Table :=
  Table.mk t.names (t.rows.map (fun r => stringifyRow t.names r))

/-- The filter `df[df[col].isin(selected)]` (source lines 487, 497,
507): keep the rows whose value in column `c` is among the selected
values.  A missing column leaves the table unchanged (in `main` the
filter runs only for detected — hence present — columns, inside a
`try` block). -/
def filterTable (t : Table) (c : String) (sel : List Val) : Table :=
  match findIdx c t.names with
  | none => t
  | some i =>
      Table.mk t.names (t.rows.filter (fun r => decide (r.getD i Val.null ∈ sel)))

/-- Apply one sidebar filter: nothing happens when the column was not
detected or the multiselect selection is empty (`if selected_depts:`). -/
def applyFilterIf (t : Table) (oc : Option String) (sel : List Val) : Table :=
  match oc with
  | none => t
  | some c => if sel = [] then t else filterTable t c sel

/-- Pandas `Series.nunique()`: number of distinct non-null values. -/
def nunique (cells : List Val) : Nat := (uniqFirst (nonNull cells)).length

/-- The metric tiles read `df[c].nunique()`; `main` only evaluates it
for detected columns, which are always present, so the `none` default
is never reached in the pipeline. -/
def nuniqueCol (t : Table) (c : String) : Nat :=
  match findIdx c t.names with
  | none => 0
  | some i => nunique (colAt t i)

/-- One chart slot of the page: the `st.info` placeholder when the
column was not detected, an `st.warning` plus empty slot when the
builder raised, or the rendered figure. -/
inductive Slot (α : Type) where
  | notDetected
  | warned (e : AggError)
  | chart (fig : α)
deriving DecidableEq, Repr

/-- The shell's handling of one builder outcome: the `try/except` in
each builder turns an exception into a warning and a `None` figure. -/
def slotOf {α : Type} (r : Except AggError α) : Slot α :=
  match r with
  | .ok fig => .chart fig
  | .error e => .warned e

/-- The shell's per-chart wiring: `st.info` when the detector found
nothing, otherwise the builder's outcome. -/
def chartSlot {α : Type} (oc : Option String) (build : String → Except AggError α) :
    Slot α :=
  match oc with
  | none => .notDetected
  | some c => slotOf (build c)

/-- The tenure-trend step: besides its slot it hands back the table —
mutated by `create_tenure_trend` on success — that the shell goes on to
display. -/
def trendStep (oc : Option String) (t : Table) (parse : Val → Option Int) :
    Slot TrendFig × Table :=
  match oc with
  | none => (.notDetected, t)
  | some c =>
      match create_tenure_trend t c parse with
      | .error e => (.warned e, t)
      | .ok (fig, t2) => (.chart fig, t2)

/-- The table the charts run on: pre-processing, then the three
sidebar filters for the columns detected on the pre-processed names
(source lines 431-510). -/
def coreTable (t0 : Table) (deptSel jobSel groupSel : List Val) : Table :=
  let t1 := preprocess t0
  applyFilterIf
    (applyFilterIf
      (applyFilterIf t1 (detect_department_column t1.names) deptSel)
      (detect_job_family_column t1.names) jobSel)
    (detect_employee_group_column t1.names) groupSel

/-- Everything one render pass produces: the three metric tiles, the
four chart slots, and the table finally displayed by
`safe_dataframe_display`. -/
structure Page where
  totalEmployees : Nat
  deptMetric : Option Nat
  jobMetric : Option Nat
  deptSlot : Slot BarFig
  groupSlot : Slot PieFig
  jobSlot : Slot BarFig
  trendSlot : Slot TrendFig
  view : Table
deriving DecidableEq, Repr

/-- One full render pass of `main` for an uploaded table (source lines
430-593): pre-process, detect the four roles on the pre-processed
names, apply the non-empty filters, then produce the metric tiles, the
four chart slots and the displayed table.  The tenure-trend step runs
before the table view, so its mutation is visible there. -/
def renderPass (t0 : Table) (deptSel jobSel groupSel : List Val)
    (parse : Val → Option Int) : Page :=
  let t1 := preprocess t0
  let dc := detect_department_column t1.names
  let jc := detect_job_family_column t1.names
  let gc := detect_employee_group_column t1.names
  let hc := detect_joining_date_column t1.names
  let t := coreTable t0 deptSel jobSel groupSel
  let tp := trendStep hc t parse
  Page.mk t.rows.length
    (dc.map (fun c => nuniqueCol t c))
    (jc.map (fun c => nuniqueCol t c))
    (chartSlot dc (create_employees_by_department t))
    (chartSlot gc (create_employee_group_split t))
    (chartSlot jc (create_talent_distribution t))
    tp.1 tp.2

/- ----------------------------------------------------------------
`load_data` (source lines 79-102).
---------------------------------------------------------------- -/

/-- Outcome of `load_data`: a table, or `st.error` plus `None` for an
unrecognised extension or a reader exception. -/
inductive LoadOutcome where
  | ok (t : Table)
  | unsupported (name : String)
  | parseFailed (msg : String)
deriving DecidableEq, Repr

/-- Source `load_data` (lines 79-102), uploaded-file branch (the
string-path branch is structurally identical): case-sensitive
`endswith` dispatch to the CSV or Excel reader, `st.error` + `None`
for any other name, and any reader exception caught into `st.error` +
`None`.  The readers are parameters (`pandas` collaborators), their
exceptions modelled as `Except.error`. -/
def load_data (name : String) (readCsv readExcel : Except String Table) :
    LoadOutcome :=
  if endsWithStr name ".csv" then
    match readCsv with
    | .ok t => .ok t
    | .error e => .parseFailed e
  else if endsWithStr name ".xlsx" || endsWithStr name ".xls" then
    match readExcel with
    | .ok t => .ok t
    | .error e => .parseFailed e
  else .unsupported name

/- ----------------------------------------------------------------
Concrete tables and parse functions used by witnesses and
counterexamples.
---------------------------------------------------------------- -/

/-- Decidable equality of builder outcomes, so witnesses can be checked
by evaluation. -/
instance {e a : Type} [DecidableEq e] [DecidableEq a] : DecidableEq (Except e a) :=
  fun x y =>
    match x, y with
    | Except.ok u, Except.ok v =>
        if h : u = v then isTrue (congrArg Except.ok h)
        else isFalse (fun he => h (Except.ok.inj he))
    | Except.error u, Except.error v =>
        if h : u = v then isTrue (congrArg Except.error h)
        else isFalse (fun he => h (Except.error.inj he))
    | Except.ok _, Except.error _ => isFalse (fun he => Except.noConfusion he)
    | Except.error _, Except.ok _ => isFalse (fun he => Except.noConfusion he)

/-- A one-column table holding a single date string. -/
def tJoin : Table := Table.mk ["Joining Date"] [[Val.str "d"]]

/-- A parse function (the `pd.to_datetime` outcome) for `tJoin`:
`"d"` parses to year 2020, everything else fails. -/
def pJoin : Val → Option Int
  | Val.str "d" => some 2020
  | _ => none

/-- A table whose employee-group column holds integers, so the donut
builder's label concatenation raises `TypeError`. -/
def tGroupBad : Table :=
  Table.mk ["Department", "Employee Group"]
    [[Val.str "Eng", Val.int 1], [Val.str "Ops", Val.int 2]]

/-- A table with a `"Pers.No."` column (integers and a null) next to an
untouched department column. -/
def tPers : Table :=
  Table.mk ["Pers.No.", "Department"]
    [[Val.int 12, Val.str "Eng"], [Val.null, Val.str "Ops"]]

/-- A date-column parse for year series used in the C4 witness. -/
def pY : Val → Option Int
  | Val.str "a" => some 2020
  | Val.str "b" => some 2019
  | _ => none

/-- A three-row department column for the label witnesses. -/
def tDept : Table :=
  Table.mk ["Department"] [[Val.str "Eng"], [Val.str "Eng"], [Val.str "Sales"]]

/-- A one-column table whose insertion order (`A` before `B`) differs
from the count order (`B` has the larger count). -/
def tGroupOrder : Table :=
  Table.mk ["Employee Group"] [[Val.str "A"], [Val.str "B"], [Val.str "B"]]

/-- C1: for every role and every list of column names containing an
exact canonical name for that role, the Detector returns a canonical
name present in the list (the first one in the source's checking
order), regardless of any keyword-matching column appearing earlier in
column order. -/
theorem detect_exact_canonical_priority (role : Role) (names : List String)
    (c : String) (h : firstCanon role names = some c) :
    detect role names = some c ∧ c ∈ canonicals role ∧ names.contains c = true := by
  have hmem : c ∈ canonicals role := List.mem_of_find?_eq_some h
  have hcont : names.contains c = true := List.find?_some h
  refine ⟨?_, hmem, hcont⟩
  cases role with
  | OrgUnit =>
      by_cases h1 : names.contains "Department"
      · simp_all [firstCanon, canonicals, detect, detect_department_column]
      · by_cases h2 : names.contains "Organizational Unit" <;>
          simp_all [firstCanon, canonicals, detect, detect_department_column]
  | RoleFamily =>
      by_cases h1 : names.contains "Job Family" <;>
        simp_all [firstCanon, canonicals, detect, detect_job_family_column]
  | EmployeeCategory =>
      by_cases h1 : names.contains "Employee Group" <;>
        simp_all [firstCanon, canonicals, detect, detect_employee_group_column]
  | HireDate =>
      by_cases h1 : names.contains "Joining Date" <;>
        simp_all [firstCanon, canonicals, detect, detect_joining_date_column]

/-- Witness for C1: with a keyword-matching column (`"dept code"`)
appearing before the canonical `"Department"`, the Detector still
returns `"Department"`. -/
theorem detect_exact_canonical_priority_witness :
    detect Role.OrgUnit ["dept code", "Department"] = some "Department" ∧
      "Department" ∈ canonicals Role.OrgUnit ∧
      (["dept code", "Department"].contains "Department") = true :=
  detect_exact_canonical_priority Role.OrgUnit ["dept code", "Department"]
    "Department" (by decide)

/- ----------------------------------------------------------------
Counting lemmas: the distinct values of a column, their counts, and
the fact that the counts add up to the number of non-null cells.
---------------------------------------------------------------- -/

theorem uniqFirst_nodup [DecidableEq α] (l : List α) : (uniqFirst l).Nodup := by
  induction l with
  | nil => simp [uniqFirst]
  | cons v t ih =>
      simp only [uniqFirst, List.nodup_cons]
      constructor
      · intro hmem
        have := (List.mem_filter.mp hmem).2
        simp at this
      · exact ih.filter _

theorem mem_uniqFirst [DecidableEq α] {l : List α} {v : α} :
    v ∈ uniqFirst l ↔ v ∈ l := by
  induction l with
  | nil => simp [uniqFirst]
  | cons w t ih =>
      simp only [uniqFirst, List.mem_cons, List.mem_filter, decide_eq_true_eq, ih]
      by_cases hv : v = w <;> simp [hv]

theorem sum_map_add_nat (L : List α) (f g : α → Nat) :
    (L.map (fun x => f x + g x)).sum = (L.map f).sum + (L.map g).sum := by
  induction L with
  | nil => simp
  | cons x t ih => simp [ih]; omega

theorem sum_ind_of_notMem [DecidableEq α] {L : List α} {v : α} (h : v ∉ L) :
    (L.map (fun x => if x = v then 1 else 0)).sum = 0 := by
  induction L with
  | nil => simp
  | cons x t ih =>
      simp only [List.mem_cons, not_or] at h
      simp [Ne.symm h.1, ih h.2, h.1]

theorem sum_ind_of_nodup_mem [DecidableEq α] {L : List α} {v : α}
    (hnd : L.Nodup) (h : v ∈ L) :
    (L.map (fun x => if x = v then 1 else 0)).sum = 1 := by
  induction L with
  | nil => simp at h
  | cons x t ih =>
      rcases List.mem_cons.mp h with rfl | hmem
      · have hnot : v ∉ t := (List.nodup_cons.mp hnd).1
        simp [sum_ind_of_notMem hnot]
      · have hx : x ≠ v := by
          rintro rfl
          exact (List.nodup_cons.mp hnd).1 hmem
        simp [hx, ih (List.nodup_cons.mp hnd).2 hmem]

theorem sum_cnt [DecidableEq α] (L : List α) (hnd : L.Nodup) :
    ∀ (vals : List α), (∀ x ∈ vals, x ∈ L) →
      (L.map (fun v => cnt v vals)).sum = vals.length := by
  intro vals
  induction vals with
  | nil => intro _; simp [cnt]
  | cons v t ih =>
      intro h
      have hv : v ∈ L := h v (List.mem_cons_self v t)
      have ht : ∀ x ∈ t, x ∈ L := fun x hx => h x (List.mem_cons_of_mem v hx)
      have hcnt : ∀ x, cnt x (v :: t) = (if v = x then 1 else 0) + cnt x t := by
        intro x; rfl
      calc (L.map (fun x => cnt x (v :: t))).sum
          = (L.map (fun x => (if v = x then 1 else 0) + cnt x t)).sum := by
            simp only [hcnt]
        _ = (L.map (fun x => if v = x then 1 else 0)).sum
              + (L.map (fun x => cnt x t)).sum := sum_map_add_nat L _ _
        _ = 1 + t.length := by
            have : (L.map (fun x => if v = x then 1 else 0)).sum
                = (L.map (fun x => if x = v then 1 else 0)).sum := by
              congr 1
              apply List.map_congr_left
              intro a _
              by_cases hav : a = v
              · simp [hav]
              · have hva : v ≠ a := fun h => hav h.symm
                simp [hav, hva]
            rw [this, sum_ind_of_nodup_mem hnd hv, ih ht]
        _ = (v :: t).length := by simp [Nat.add_comm]

theorem total_eq_len [DecidableEq α] (vals : List α) :
    ((uniqFirst vals).map (fun v => cnt v vals)).sum = vals.length :=
  sum_cnt (uniqFirst vals) (uniqFirst_nodup vals) vals
    (fun _ hx => mem_uniqFirst.mpr hx)

/- ----------------------------------------------------------------
Rounding lemmas: `roundHalfEvenDiv a b` is within one half of the
exact quotient, so each rounded percentage is within 1/20 of a
percentage point of the exact value.
---------------------------------------------------------------- -/

theorem rhed_close {a b : Nat} (hb : 0 < b) :
    |((roundHalfEvenDiv a b : ℚ)) - (a : ℚ) / b| ≤ 1 / 2 := by
  have hdm : b * (a / b) + a % b = a := Nat.div_add_mod a b
  have hrb : a % b < b := Nat.mod_lt a hb
  have hbq : (0 : ℚ) < b := by exact_mod_cast hb
  have hbq' : (b : ℚ) ≠ 0 := ne_of_gt hbq
  have key : (a : ℚ) / b = ((a / b : Nat) : ℚ) + ((a % b : Nat) : ℚ) / b := by
    have h : (a : ℚ) = (b : ℚ) * ((a / b : Nat) : ℚ) + ((a % b : Nat) : ℚ) := by
      exact_mod_cast hdm.symm
    rw [h, mul_comm, add_div, mul_div_assoc, div_self hbq', mul_one]
  have hrq : (0 : ℚ) ≤ ((a % b : Nat) : ℚ) / b := by positivity
  have hrq1 : ((a % b : Nat) : ℚ) / b < 1 := by
    rw [div_lt_one hbq]
    exact_mod_cast hrb
  rw [roundHalfEvenDiv]
  split_ifs with h1 h2 h3
  · -- 2r < b, keep the floor : distance r/b ≤ 1/2
    have hc : ((a % b : Nat) : ℚ) * 2 ≤ (b : ℚ) := by
      exact_mod_cast (by omega : (a % b) * 2 ≤ b)
    have hhalf : ((a % b : Nat) : ℚ) / b ≤ 1 / 2 := by
      rw [div_le_iff₀ hbq]
      linarith
    rw [key, abs_le]
    constructor <;> linarith
  · -- b < 2r, round up : distance (b - r)/b ≤ 1/2
    have hc : (b : ℚ) ≤ ((a % b : Nat) : ℚ) * 2 := by
      exact_mod_cast (by omega : b ≤ (a % b) * 2)
    have hhalf : 1 / 2 ≤ ((a % b : Nat) : ℚ) / b := by
      rw [le_div_iff₀ hbq]
      linarith
    rw [key]
    push_cast
    rw [abs_le]
    constructor <;> linarith
  · -- tie, floor is even : keep it, distance exactly 1/2
    have hc : ((a % b : Nat) : ℚ) * 2 = (b : ℚ) := by
      exact_mod_cast (by omega : (a % b) * 2 = b)
    have htie : ((a % b : Nat) : ℚ) / b = 1 / 2 := by
      rw [div_eq_iff hbq']
      linarith
    rw [key, abs_le]
    constructor <;> linarith
  · -- tie, floor is odd : round up, distance exactly 1/2
    have hc : ((a % b : Nat) : ℚ) * 2 = (b : ℚ) := by
      exact_mod_cast (by omega : (a % b) * 2 = b)
    have htie : ((a % b : Nat) : ℚ) / b = 1 / 2 := by
      rw [div_eq_iff hbq']
      linarith
    rw [key]
    push_cast
    rw [abs_le]
    constructor <;> linarith

theorem pct_close {c total : Nat} (h : 0 < total) :
    |((pctTenths c total : ℚ)) / 10 - (100 * (c : ℚ)) / total| ≤ 1 / 20 := by
  have hbase := rhed_close (a := 1000 * c) h
  have hcast : ((1000 * c : Nat) : ℚ) = 1000 * (c : ℚ) := by push_cast; ring
  have htot : (total : ℚ) ≠ 0 := by
    exact_mod_cast Nat.pos_iff_ne_zero.mp h
  have hsplit : (100 * (c : ℚ)) / total = ((1000 * (c : ℚ)) / total) / 10 := by
    field_simp
    ring
  rw [pctTenths, hsplit]
  rw [div_sub_div_same]
  rw [abs_div]
  have h10 : |(10 : ℚ)| = 10 := by norm_num
  rw [h10]
  rw [div_le_div_iff₀ (by norm_num : (0:ℚ) < 10) (by norm_num : (0:ℚ) < 20)] at *
  rw [hcast] at hbase
  nlinarith [hbase]

theorem sum_abs_bound :
    ∀ (l : List (ℚ × ℚ)), (∀ p ∈ l, |p.1 - p.2| ≤ 1 / 20) →
      |(l.map Prod.fst).sum - (l.map Prod.snd).sum| ≤ (l.length : ℚ) / 20 := by
  intro l
  induction l with
  | nil => intro _; simp
  | cons x t ih =>
      intro h
      have hx : |x.1 - x.2| ≤ 1 / 20 := h x (List.mem_cons_self x t)
      have ht : |(t.map Prod.fst).sum - (t.map Prod.snd).sum| ≤ (t.length : ℚ) / 20 :=
        ih (fun p hp => h p (List.mem_cons_of_mem x hp))
      simp only [List.map_cons, List.sum_cons, List.length_cons]
      have hsplit : x.1 + (t.map Prod.fst).sum - (x.2 + (t.map Prod.snd).sum)
          = (x.1 - x.2) + ((t.map Prod.fst).sum - (t.map Prod.snd).sum) := by ring
      rw [hsplit]
      calc |(x.1 - x.2) + ((t.map Prod.fst).sum - (t.map Prod.snd).sum)|
          ≤ |x.1 - x.2| + |(t.map Prod.fst).sum - (t.map Prod.snd).sum| := abs_add _ _
        _ ≤ 1 / 20 + (t.length : ℚ) / 20 := add_le_add hx ht
        _ = ((t.length + 1 : Nat) : ℚ) / 20 := by push_cast; ring

theorem totalOf_eq_length (vals : List Val) : totalOf vals = vals.length := by
  unfold totalOf countedOf
  rw [List.map_map]
  simpa [Function.comp] using total_eq_len vals

theorem mem_rawRows {vals : List Val} {r : AggRow} :
    r ∈ rawRows vals ↔
      ∃ v ∈ uniqFirst vals,
        r = AggRow.mk v (cnt v vals) (pctTenths (cnt v vals) (totalOf vals)) := by
  simp only [rawRows, countedOf, List.map_map, List.mem_map, Function.comp]
  constructor
  · rintro ⟨v, hv, rfl⟩
    exact ⟨v, hv, rfl⟩
  · rintro ⟨v, hv, rfl⟩
    exact ⟨v, hv, rfl⟩

theorem rawRows_map_category (vals : List Val) :
    (rawRows vals).map AggRow.category = uniqFirst vals := by
  have h : (AggRow.category ∘
        ((fun p : Val × Nat => AggRow.mk p.1 p.2 (pctTenths p.2 (totalOf vals))) ∘
          (fun v => (v, cnt v vals)))) = id := by
    funext v
    rfl
  simp [rawRows, countedOf, List.map_map, h]

theorem rawRows_map_count (vals : List Val) :
    ((rawRows vals).map AggRow.count).sum = totalOf vals := by
  unfold rawRows
  rw [List.map_map]
  simp only [totalOf]
  congr 1

/-- C2 (amended): `countBy` groups by the distinct non-null values of
the column (nulls are excluded from the result rows and from the
denominator, which equals the number of non-null cells), each row's
percentage is `round(count/total*100, 1)`, the result is empty — not
an error — when the column is entirely null or the table is empty,
and, whenever the column has at least one non-null value, the rounded
percentages sum to within `k/20` of `100.0`, where `k` is the number
of distinct non-null values (each one-decimal rounding can contribute
an error of up to `0.05`; the claimed fixed bound `0.1` fails, see the
counterexample). -/
theorem countBy_spec (cells : List Val) :
    ((countBy cells).map AggRow.category).Perm (uniqFirst (nonNull cells)) ∧
    (∀ r ∈ countBy cells, r.count = cnt r.category (nonNull cells) ∧
        r.pctTenths = pctTenths r.count (nonNull cells).length) ∧
    (nonNull cells = [] → countBy cells = []) ∧
    (nonNull cells ≠ [] →
      |sumPct (countBy cells) - 100| ≤ ((countBy cells).length : ℚ) / 20) := by
  set vals := nonNull cells with hvals
  have hperm : (countBy cells).Perm (rawRows vals) :=
    List.perm_insertionSort descCount (rawRows vals)
  refine ⟨?_, ?_, ?_, ?_⟩
  · exact (hperm.map AggRow.category).trans (rawRows_map_category vals ▸ List.Perm.refl _)
  · intro r hr
    have hmem : r ∈ rawRows vals := hperm.mem_iff.mp hr
    rcases mem_rawRows.mp hmem with ⟨v, _, rfl⟩
    exact ⟨rfl, by rw [totalOf_eq_length]⟩
  · intro h
    simp [countBy, rawRows, countedOf, ← hvals, h, uniqFirst, List.insertionSort]
  · intro hne
    have hlen : 0 < vals.length := List.length_pos.mpr hne
    have htot : 0 < totalOf vals := by rw [totalOf_eq_length]; exact hlen
    have htotq : ((totalOf vals : Nat) : ℚ) ≠ 0 := by
      exact_mod_cast Nat.pos_iff_ne_zero.mp htot
    -- pair each rounded percentage with the exact one
    set pairs := (rawRows vals).map
      (fun r => (AggRow.percentage r, (100 * (r.count : ℚ)) / (totalOf vals : Nat)))
      with hpairs
    have hclose : ∀ p ∈ pairs, |p.1 - p.2| ≤ 1 / 20 := by
      intro p hp
      rw [hpairs] at hp
      rcases List.mem_map.mp hp with ⟨r, hrmem, rfl⟩
      rcases mem_rawRows.mp hrmem with ⟨v, _, rfl⟩
      simpa [AggRow.percentage] using pct_close (c := cnt v vals) htot
    have hbound := sum_abs_bound pairs hclose
    have hfst : (pairs.map Prod.fst).sum = sumPct (rawRows vals) := by
      rw [hpairs, List.map_map]
      rfl
    have hsnd : (pairs.map Prod.snd).sum = 100 := by
      rw [hpairs, List.map_map]
      have hrw : ((fun p => p.2) ∘
            (fun r => (AggRow.percentage r, (100 * (r.count : ℚ)) / (totalOf vals : Nat))))
          = fun r : AggRow => (100 / (totalOf vals : Nat)) * (r.count : ℚ) := by
        funext r
        simp [Function.comp]
        ring
      rw [hrw, List.sum_map_mul_left]
      have hcnt : ((rawRows vals).map (fun r : AggRow => ((r.count : Nat) : ℚ))).sum
          = ((totalOf vals : Nat) : ℚ) := by
        have := rawRows_map_count vals
        calc ((rawRows vals).map (fun r : AggRow => ((r.count : Nat) : ℚ))).sum
            = (((rawRows vals).map AggRow.count).map (fun n : Nat => (n : ℚ))).sum := by
              rw [List.map_map]; rfl
          _ = ((((rawRows vals).map AggRow.count).sum : Nat) : ℚ) :=
              (Nat.cast_list_sum _).symm
          _ = ((totalOf vals : Nat) : ℚ) := by rw [this]
      rw [hcnt]
      field_simp
    have hlens : pairs.length = (countBy cells).length := by
      rw [hpairs, List.length_map]
      exact (hperm.length_eq).symm
    have hsum : sumPct (countBy cells) = sumPct (rawRows vals) := by
      unfold sumPct
      exact (hperm.map AggRow.percentage).sum_eq
    rw [hsum, ← hfst, ← hsnd, ← hlens]
    exact hbound

/-- Counterexample to C2 as stated: for the six-distinct-value column
the rounded percentages are six copies of `16.7`, summing to `100.2`,
which is not within `0.1` of `100.0` although every cell is non-null. -/
theorem countBy_percentage_sum_not_within_tenth :
    nonNull cellsSix ≠ [] ∧
      ¬ |sumPct (countBy cellsSix) - 100| ≤ 1 / 10 := by
  constructor
  · decide
  · have h : (countBy cellsSix).map AggRow.percentage
        = [(167 : ℚ) / 10, 167 / 10, 167 / 10, 167 / 10, 167 / 10, 167 / 10] := by
      have hrows : countBy cellsSix =
          [AggRow.mk (Val.str "A") 1 167, AggRow.mk (Val.str "B") 1 167,
           AggRow.mk (Val.str "C") 1 167, AggRow.mk (Val.str "D") 1 167,
           AggRow.mk (Val.str "E") 1 167, AggRow.mk (Val.str "F") 1 167] := by decide
      rw [hrows]
      norm_num [AggRow.percentage]
    intro hcontra
    rw [sumPct, h] at hcontra
    have hval : ((167 : ℚ) / 10 + (167 / 10 + (167 / 10 + (167 / 10 + (167 / 10
        + (167 / 10 + 0)))))) - 100 = 1 / 5 := by norm_num
    simp only [List.sum_cons, List.sum_nil] at hcontra
    rw [hval] at hcontra
    rw [abs_of_nonneg (by norm_num : (0:ℚ) ≤ 1 / 5)] at hcontra
    norm_num at hcontra

/-- Witness for C2 (amended), at the spec's own scenario column
`["Eng", "Eng", "Sales"]` plus a null cell: the column is not entirely
null and the percentage sum `66.7 + 33.3 = 100.0` respects the `k/20`
bound. -/
theorem countBy_spec_witness :
    nonNull [Val.str "Eng", Val.str "Eng", Val.str "Sales", Val.null] ≠ [] ∧
      |sumPct (countBy [Val.str "Eng", Val.str "Eng", Val.str "Sales", Val.null]) - 100|
        ≤ ((countBy [Val.str "Eng", Val.str "Eng", Val.str "Sales", Val.null]).length : ℚ) / 20 :=
  ⟨by decide,
    (countBy_spec [Val.str "Eng", Val.str "Eng", Val.str "Sales", Val.null]).2.2.2
      (by decide)⟩

/- ----------------------------------------------------------------
C3: absent column ⇒ InvalidColumn error.
---------------------------------------------------------------- -/

theorem findIdx_eq_none_of_not_mem {c : String} {names : List String}
    (h : c ∉ names) : findIdx c names = none := by
  induction names with
  | nil => rfl
  | cons n ns ih =>
      simp only [List.mem_cons, not_or] at h
      have hne : ¬ n = c := fun he => h.1 he.symm
      simp [findIdx, hne, ih h.2]

/-- C3: for every table and every column name absent from the table,
every aggregation — `countBy`, `countByYear`, and each chart builder
that consumes them — fails with the `invalidColumn` error (the pandas
`KeyError`), rather than succeeding or failing some other way. -/
theorem absent_column_invalid (t : Table) (c : String) (parse : Val → Option Int)
    (h : c ∉ t.names) :
    countByTable t c = .error .invalidColumn ∧
    countByYearTable t c parse = .error .invalidColumn ∧
    create_employees_by_department t c = .error .invalidColumn ∧
    create_talent_distribution t c = .error .invalidColumn ∧
    create_employee_group_split t c = .error .invalidColumn ∧
    create_tenure_trend t c parse = .error .invalidColumn := by
  have hidx : findIdx c t.names = none := findIdx_eq_none_of_not_mem h
  refine ⟨?_, ?_, ?_, ?_, ?_, ?_⟩ <;>
    simp [countByTable, countByYearTable, create_employees_by_department,
      create_talent_distribution, create_employee_group_split,
      create_tenure_trend, hidx]

/-- Witness for C3 at a one-column table and the absent name
`"Salary"`. -/
theorem absent_column_invalid_witness :
    countByTable (Table.mk ["Department"] [[Val.str "Eng"]]) "Salary"
        = .error .invalidColumn ∧
    countByYearTable (Table.mk ["Department"] [[Val.str "Eng"]]) "Salary"
        (fun _ => none) = .error .invalidColumn ∧
    create_employees_by_department (Table.mk ["Department"] [[Val.str "Eng"]])
        "Salary" = .error .invalidColumn ∧
    create_talent_distribution (Table.mk ["Department"] [[Val.str "Eng"]])
        "Salary" = .error .invalidColumn ∧
    create_employee_group_split (Table.mk ["Department"] [[Val.str "Eng"]])
        "Salary" = .error .invalidColumn ∧
    create_tenure_trend (Table.mk ["Department"] [[Val.str "Eng"]]) "Salary"
        (fun _ => none) = .error .invalidColumn :=
  absent_column_invalid (Table.mk ["Department"] [[Val.str "Eng"]]) "Salary"
    (fun _ => none) (by decide)

/- ----------------------------------------------------------------
C4: `countByYear` drops unparsable rows, counts per calendar year, and
sorts ascending by year.
---------------------------------------------------------------- -/

theorem mem_countByYear {parsed : List (Option Int)} {p : Int × Nat} :
    p ∈ countByYear parsed ↔
      ∃ y ∈ uniqFirst (parsed.filterMap id),
        p = (y, cnt y (parsed.filterMap id)) := by
  unfold countByYear
  rw [List.mem_insertionSort]
  simp only [List.mem_map]
  constructor
  · rintro ⟨y, hy, rfl⟩
    exact ⟨y, hy, rfl⟩
  · rintro ⟨y, hy, rfl⟩
    exact ⟨y, hy, rfl⟩

/-- C4: `countByYear` over the per-cell parse outcomes of a date
column drops every unparsable cell (no year in the result comes from a
`none` outcome), counts the rows parsing to each year, includes every
parsed year, and returns the year series strictly sorted ascending by
year. -/
theorem countByYear_spec (raw : List Val) (parse : Val → Option Int) :
    (∀ p ∈ countByYear (raw.map parse),
        (∃ v ∈ raw, parse v = some p.1) ∧
          p.2 = cnt p.1 ((raw.map parse).filterMap id)) ∧
    (∀ v ∈ raw, ∀ y : Int, parse v = some y →
        y ∈ (countByYear (raw.map parse)).map Prod.fst) ∧
    List.Sorted (fun a b : Int × Nat => a.1 < b.1) (countByYear (raw.map parse)) := by
  refine ⟨?_, ?_, ?_⟩
  · intro p hp
    rcases mem_countByYear.mp hp with ⟨y, hy, rfl⟩
    have hyy : y ∈ (raw.map parse).filterMap id := mem_uniqFirst.mp hy
    rcases List.mem_filterMap.mp hyy with ⟨o, ho, hoy⟩
    rcases List.mem_map.mp ho with ⟨v, hv, rfl⟩
    exact ⟨⟨v, hv, by simpa using hoy⟩, rfl⟩
  · intro v hv y hpar
    have hyy : y ∈ (raw.map parse).filterMap id :=
      List.mem_filterMap.mpr ⟨parse v, List.mem_map.mpr ⟨v, hv, rfl⟩, by simpa using hpar⟩
    have hu : y ∈ uniqFirst ((raw.map parse).filterMap id) := mem_uniqFirst.mpr hyy
    exact List.mem_map.mpr ⟨(y, cnt y ((raw.map parse).filterMap id)),
      mem_countByYear.mpr ⟨y, hu, rfl⟩, rfl⟩
  · have hsorted : List.Sorted yearLe (countByYear (raw.map parse)) :=
      List.sorted_insertionSort yearLe _
    have hndfst : ((countByYear (raw.map parse)).map Prod.fst).Nodup := by
      have hperm := (List.perm_insertionSort yearLe
        ((uniqFirst ((raw.map parse).filterMap id)).map
          (fun y => (y, cnt y ((raw.map parse).filterMap id))))).map Prod.fst
      refine hperm.nodup_iff.mpr ?_
      rw [List.map_map]
      have hcomp : (Prod.fst ∘ fun y : Int =>
          (y, cnt y ((raw.map parse).filterMap id))) = id := by
        funext y
        rfl
      rw [hcomp, List.map_id]
      exact uniqFirst_nodup _
    have hne : (countByYear (raw.map parse)).Pairwise
        (fun a b : Int × Nat => a.1 ≠ b.1) := List.pairwise_map.mp hndfst
    exact (hsorted.and hne).imp (fun h => lt_of_le_of_ne h.1 h.2)

/-- Witness for C4: with `"bad"` unparsable, the year 2019 of the
parsable cell `"b"` appears in the series, and the series is strictly
sorted by year. -/
theorem countByYear_spec_witness :
    (2019 : Int) ∈ (countByYear ([Val.str "a", Val.str "bad", Val.str "b"].map pY)).map
        Prod.fst ∧
    List.Sorted (fun a b : Int × Nat => a.1 < b.1)
      (countByYear ([Val.str "a", Val.str "bad", Val.str "b"].map pY)) :=
  ⟨(countByYear_spec [Val.str "a", Val.str "bad", Val.str "b"] pY).2.1
      (Val.str "b") (by decide) 2019 (by decide),
    (countByYear_spec [Val.str "a", Val.str "bad", Val.str "b"] pY).2.2⟩

/- ----------------------------------------------------------------
C5: filtering is a fresh view and is idempotent, but the tenure-trend
builder mutates the table it is given.
---------------------------------------------------------------- -/

/-- C5 (amended): filtering produces a new table view — it keeps the
column set intact and applying the same filter twice equals applying
it once, so repeated filter application starting from the original
upload is idempotent — but the render pass is not mutation-free as
claimed: on success `create_tenure_trend` rewrites the joining-date
column in the table it is given and appends a `'Join Year'` column
(when no column of that name exists), and this mutated table is the
one the shell goes on to display. -/
theorem filter_idempotent_and_trend_mutates
    (t : Table) (c : String) (sel : List Val) (parse : Val → Option Int) :
    filterTable (filterTable t c sel) c sel = filterTable t c sel ∧
    (filterTable t c sel).names = t.names ∧
    ("Join Year" ∉ t.names →
      ∀ fig t2, create_tenure_trend t c parse = .ok (fig, t2) →
        t2.names = t.names ++ ["Join Year"]) := by
  refine ⟨?_, ?_, ?_⟩
  · cases h : findIdx c t.names with
    | none => simp [filterTable, h]
    | some i =>
        simp only [filterTable, h, List.filter_filter]
        congr 1
        apply List.filter_congr
        intro r _
        simp
  · cases h : findIdx c t.names with
    | none => simp [filterTable, h]
    | some i => simp [filterTable, h]
  · intro hJY fig t2 hok
    unfold create_tenure_trend at hok
    cases h : findIdx c t.names with
    | none => rw [h] at hok; exact absurd hok (by simp)
    | some i =>
        rw [h] at hok
        simp only [Except.ok.injEq, Prod.mk.injEq] at hok
        have ht2 := hok.2
        have hidxJY : findIdx "Join Year" t.names = none :=
          findIdx_eq_none_of_not_mem hJY
        rw [← ht2]
        simp [setOrAddCol, setColAt, hidxJY]

/-- Counterexample to C5 as stated: one render pass over a one-column
table ends with a displayed table whose column list has gained a
`'Join Year'` column, so the render pass does rewrite the column set
of the table it is given. -/
theorem renderPass_mutates_columns :
    (renderPass tJoin [] [] [] pJoin).view.names = ["Joining Date", "Join Year"] ∧
    tJoin.names = ["Joining Date"] ∧
    (["Joining Date", "Join Year"] : List String) ≠ ["Joining Date"] := by decide

/-- Witness for C5 (amended) at the concrete table `tJoin`. -/
theorem filter_idempotent_and_trend_mutates_witness :
    filterTable (filterTable tJoin "Joining Date" [Val.str "d"]) "Joining Date"
        [Val.str "d"]
      = filterTable tJoin "Joining Date" [Val.str "d"] ∧
    (Table.mk ["Joining Date", "Join Year"] [[Val.date 2020, Val.int 2020]]).names
      = tJoin.names ++ ["Join Year"] :=
  ⟨(filter_idempotent_and_trend_mutates tJoin "Joining Date" [Val.str "d"] pJoin).1,
    (filter_idempotent_and_trend_mutates tJoin "Joining Date" [Val.str "d"] pJoin).2.2
      (by decide)
      (TrendFig.mk [((2020 : Int), 1)] ["1"] "Hiring Trend Over Years")
      (Table.mk ["Joining Date", "Join Year"] [[Val.date 2020, Val.int 2020]])
      (by decide)⟩

/- ----------------------------------------------------------------
C6: per-row label formats of the chart builders.
---------------------------------------------------------------- -/

theorem buildLabels_ok :
    ∀ {R : List AggRow} {ls : List String}, buildLabels R = .ok ls →
      List.Forall₂ (fun (r : AggRow) (l : String) => ∃ s, r.category = Val.str s ∧
          l = s ++ "<br>" ++ toString r.count ++ " (" ++ fmtTenth r.pctTenths ++ "%)")
        R ls := by
  intro R
  induction R with
  | nil =>
      intro ls h
      simp only [buildLabels, Except.ok.injEq] at h
      rw [← h]
      exact List.Forall₂.nil
  | cons r rs ih =>
      intro ls h
      unfold buildLabels at h
      cases hd : donutLabelCell r with
      | error e => rw [hd] at h; exact absurd h (by simp)
      | ok s =>
          rw [hd] at h
          cases ht : buildLabels rs with
          | error e => rw [ht] at h; exact absurd h (by simp)
          | ok ss =>
              rw [ht] at h
              simp only [Except.ok.injEq] at h
              rw [← h]
              refine List.Forall₂.cons ?_ (ih ht)
              cases hc : r.category with
              | str s0 =>
                  rw [donutLabelCell, hc] at hd
                  simp only [Except.ok.injEq] at hd
                  exact ⟨s0, rfl, hd.symm⟩
              | int z => rw [donutLabelCell, hc] at hd; exact absurd hd (by simp)
              | date y => rw [donutLabelCell, hc] at hd; exact absurd hd (by simp)
              | null => rw [donutLabelCell, hc] at hd; exact absurd hd (by simp)

/-- C6 (amended): in the bar contexts every row's label is
`"<count> (<percentage>%)"`; in the donut context every row's label is
`"<category><br><count> (<percentage>%)"` (the separator is the HTML
break `"<br>"`, the spec's `"\n"`); but in the line context the
per-point text is just the count (`texttemplate='%{y}'`), not
`"<count> (<percentage>%)"` as claimed — see the counterexample. -/
theorem chart_labels_spec (t : Table) (c : String) (parse : Val → Option Int) :
    (∀ fig, create_employees_by_department t c = .ok fig →
        ∀ r ∈ fig.rows,
          r.label = toString r.count ++ " (" ++ fmtTenth r.pctTenths ++ "%)") ∧
    (∀ fig, create_talent_distribution t c = .ok fig →
        ∀ r ∈ fig.rows,
          r.label = toString r.count ++ " (" ++ fmtTenth r.pctTenths ++ "%)") ∧
    (∀ fig, create_employee_group_split t c = .ok fig →
        List.Forall₂ (fun (r : AggRow) (l : String) => ∃ s, r.category = Val.str s ∧
            l = s ++ "<br>" ++ toString r.count ++ " (" ++ fmtTenth r.pctTenths ++ "%)")
          fig.rows fig.labels) ∧
    (∀ fig t2, create_tenure_trend t c parse = .ok (fig, t2) →
        fig.pointTexts = fig.series.map (fun p => toString p.2)) := by
  refine ⟨?_, ?_, ?_, ?_⟩
  · intro fig hok r hr
    unfold create_employees_by_department at hok
    cases h : findIdx c t.names with
    | none => rw [h] at hok; exact absurd hok (by simp)
    | some i =>
        rw [h] at hok
        simp only [Except.ok.injEq] at hok
        rw [← hok] at hr
        have hr2 := List.mem_insertionSort ascCountL |>.mp hr
        rcases List.mem_map.mp hr2 with ⟨r0, _, rfl⟩
        rfl
  · intro fig hok r hr
    unfold create_talent_distribution at hok
    cases h : findIdx c t.names with
    | none => rw [h] at hok; exact absurd hok (by simp)
    | some i =>
        rw [h] at hok
        simp only [Except.ok.injEq] at hok
        rw [← hok] at hr
        have hr2 := List.mem_insertionSort ascCountL |>.mp hr
        rcases List.mem_map.mp hr2 with ⟨r0, _, rfl⟩
        rfl
  · intro fig hok
    unfold create_employee_group_split at hok
    cases h : findIdx c t.names with
    | none => rw [h] at hok; exact absurd hok (by simp)
    | some i =>
        rw [h] at hok
        have hok2 : (match buildLabels (countBy (colAt t i)) with
            | Except.error e => Except.error e
            | Except.ok ls =>
                Except.ok (PieFig.mk (countBy (colAt t i)) ls (c ++ " Split")))
            = Except.ok fig := hok
        cases hl : buildLabels (countBy (colAt t i)) with
        | error e => rw [hl] at hok2; exact absurd hok2 (by simp)
        | ok ls =>
            rw [hl] at hok2
            simp only [Except.ok.injEq] at hok2
            rw [← hok2]
            exact buildLabels_ok hl
  · intro fig t2 hok
    unfold create_tenure_trend at hok
    cases h : findIdx c t.names with
    | none => rw [h] at hok; exact absurd hok (by simp)
    | some i =>
        rw [h] at hok
        simp only [Except.ok.injEq, Prod.mk.injEq] at hok
        rw [← hok.1]

/-- Counterexample to C6 as stated: in the line context the point text
for the single year of `tJoin` is `"1"`, the bare count, not the
claimed `"<count> (<percentage>%)"` (which would read `"1 (100.0%)"`
for this single-year series). -/
theorem trend_point_text_not_count_pct :
    create_tenure_trend tJoin "Joining Date" pJoin =
      .ok (TrendFig.mk [((2020 : Int), 1)] ["1"] "Hiring Trend Over Years",
        Table.mk ["Joining Date", "Join Year"] [[Val.date 2020, Val.int 2020]]) ∧
    ("1" : String) ≠ "1 (100.0%)" := by decide

/-- Witness for C6 (amended): the bar label of the `"Sales"` row of
`tDept` follows the `"<count> (<percentage>%)"` format. -/
theorem chart_labels_spec_witness :
    (LRow.mk (Val.str "Sales") 1 333 "1 (33.3%)").label
      = toString (LRow.mk (Val.str "Sales") 1 333 "1 (33.3%)").count ++ " ("
        ++ fmtTenth (LRow.mk (Val.str "Sales") 1 333 "1 (33.3%)").pctTenths ++ "%)" :=
  (chart_labels_spec tDept "Department" pJoin).1
    (BarFig.mk
      [LRow.mk (Val.str "Sales") 1 333 "1 (33.3%)",
       LRow.mk (Val.str "Eng") 2 667 "2 (66.7%)"]
      "Employees by Department")
    (by decide)
    (LRow.mk (Val.str "Sales") 1 333 "1 (33.3%)")
    (by decide)

/- ----------------------------------------------------------------
C7: a failing chart builder yields a warning and an empty slot and
never prevents the rest of the page.
---------------------------------------------------------------- -/

/-- C7: when the employee-group donut builder fails on the filtered
table (the one failure reachable for a detected column: the
`TypeError` of its label concatenation), its slot becomes a warning
with no chart, while the metric tiles, the other three chart slots,
and the table view are still produced, each equal to its own
independent computation over the same table. -/
theorem chart_failure_isolated
    (t0 : Table) (ds js gs : List Val) (parse : Val → Option Int)
    (c : String) (e : AggError)
    (hgc : detect_employee_group_column (preprocess t0).names = some c)
    (herr : create_employee_group_split (coreTable t0 ds js gs) c = .error e) :
    renderPass t0 ds js gs parse = Page.mk
      (coreTable t0 ds js gs).rows.length
      ((detect_department_column (preprocess t0).names).map
        (fun c2 => nuniqueCol (coreTable t0 ds js gs) c2))
      ((detect_job_family_column (preprocess t0).names).map
        (fun c2 => nuniqueCol (coreTable t0 ds js gs) c2))
      (chartSlot (detect_department_column (preprocess t0).names)
        (create_employees_by_department (coreTable t0 ds js gs)))
      (Slot.warned e)
      (chartSlot (detect_job_family_column (preprocess t0).names)
        (create_talent_distribution (coreTable t0 ds js gs)))
      (trendStep (detect_joining_date_column (preprocess t0).names)
        (coreTable t0 ds js gs) parse).1
      (trendStep (detect_joining_date_column (preprocess t0).names)
        (coreTable t0 ds js gs) parse).2 := by
  unfold renderPass
  simp only [hgc, chartSlot, slotOf, herr]

/-- Witness for C7: on `tGroupBad` (integer employee groups) the donut
builder raises `TypeError`; the pass still renders the department
chart, the placeholders, the metrics, and the table view. -/
theorem chart_failure_isolated_witness :
    renderPass tGroupBad [] [] [] (fun _ => none) = Page.mk
      (coreTable tGroupBad [] [] []).rows.length
      ((detect_department_column (preprocess tGroupBad).names).map
        (fun c2 => nuniqueCol (coreTable tGroupBad [] [] []) c2))
      ((detect_job_family_column (preprocess tGroupBad).names).map
        (fun c2 => nuniqueCol (coreTable tGroupBad [] [] []) c2))
      (chartSlot (detect_department_column (preprocess tGroupBad).names)
        (create_employees_by_department (coreTable tGroupBad [] [] [])))
      (Slot.warned AggError.typeMismatch)
      (chartSlot (detect_job_family_column (preprocess tGroupBad).names)
        (create_talent_distribution (coreTable tGroupBad [] [] [])))
      (trendStep (detect_joining_date_column (preprocess tGroupBad).names)
        (coreTable tGroupBad [] [] []) (fun _ => none)).1
      (trendStep (detect_joining_date_column (preprocess tGroupBad).names)
        (coreTable tGroupBad [] [] []) (fun _ => none)).2 :=
  chart_failure_isolated tGroupBad [] [] [] (fun _ => none) "Employee Group"
    AggError.typeMismatch (by decide) (by decide)

/- ----------------------------------------------------------------
C8: bar rows are sorted ascending by count; donut rows are in
`value_counts` order — descending by count, not insertion order.
---------------------------------------------------------------- -/

/-- C8 (amended): every non-empty bar-context aggregation is sorted
ascending by count (largest on top), but the donut-context aggregation
does not keep insertion order: it carries `value_counts`' descending
count sort — see the counterexample. -/
theorem chart_order_spec (t : Table) (c : String) :
    (∀ fig, create_employees_by_department t c = .ok fig →
        List.Sorted ascCountL fig.rows) ∧
    (∀ fig, create_talent_distribution t c = .ok fig →
        List.Sorted ascCountL fig.rows) ∧
    (∀ fig, create_employee_group_split t c = .ok fig →
        List.Sorted descCount fig.rows) := by
  refine ⟨?_, ?_, ?_⟩
  · intro fig hok
    unfold create_employees_by_department at hok
    cases h : findIdx c t.names with
    | none => rw [h] at hok; exact absurd hok (by simp)
    | some i =>
        rw [h] at hok
        simp only [Except.ok.injEq] at hok
        rw [← hok]
        exact List.sorted_insertionSort ascCountL _
  · intro fig hok
    unfold create_talent_distribution at hok
    cases h : findIdx c t.names with
    | none => rw [h] at hok; exact absurd hok (by simp)
    | some i =>
        rw [h] at hok
        simp only [Except.ok.injEq] at hok
        rw [← hok]
        exact List.sorted_insertionSort ascCountL _
  · intro fig hok
    unfold create_employee_group_split at hok
    cases h : findIdx c t.names with
    | none => rw [h] at hok; exact absurd hok (by simp)
    | some i =>
        rw [h] at hok
        have hok2 : (match buildLabels (countBy (colAt t i)) with
            | Except.error e => Except.error e
            | Except.ok ls =>
                Except.ok (PieFig.mk (countBy (colAt t i)) ls (c ++ " Split")))
            = Except.ok fig := hok
        cases hl : buildLabels (countBy (colAt t i)) with
        | error e => rw [hl] at hok2; exact absurd hok2 (by simp)
        | ok ls =>
            rw [hl] at hok2
            simp only [Except.ok.injEq] at hok2
            rw [← hok2]
            exact List.sorted_insertionSort descCount _

/-- Counterexample to C8 as stated: the donut aggregation of
`tGroupOrder` lists `B` (count 2) before `A` (count 1), the
`value_counts` descending order, not the insertion order `[A, B]` of
the distinct values. -/
theorem donut_not_insertion_order :
    create_employee_group_split tGroupOrder "Employee Group" =
      .ok (PieFig.mk
        [AggRow.mk (Val.str "B") 2 667, AggRow.mk (Val.str "A") 1 333]
        ["B<br>2 (66.7%)", "A<br>1 (33.3%)"] "Employee Group Split") ∧
    uniqFirst (nonNull (colAt tGroupOrder 0)) = [Val.str "A", Val.str "B"] ∧
    ([AggRow.mk (Val.str "B") 2 667, AggRow.mk (Val.str "A") 1 333].map
        AggRow.category) ≠ [Val.str "A", Val.str "B"] := by decide

/-- Witness for C8 (amended): the donut rows of `tGroupOrder` are
sorted descending by count. -/
theorem chart_order_spec_witness :
    List.Sorted descCount
      [AggRow.mk (Val.str "B") 2 667, AggRow.mk (Val.str "A") 1 333] :=
  (chart_order_spec tGroupOrder "Employee Group").2.2
    (PieFig.mk [AggRow.mk (Val.str "B") 2 667, AggRow.mk (Val.str "A") 1 333]
      ["B<br>2 (66.7%)", "A<br>1 (33.3%)"] "Employee Group Split")
    (by decide)

/- ----------------------------------------------------------------
C9: the pre-processing stringifies exactly the `"Pers"` columns.
---------------------------------------------------------------- -/

theorem stringifyRow_getD (ns : List String) :
    ∀ (r : List Val) (i : Nat), r.length = ns.length → i < ns.length →
      (stringifyRow ns r).getD i Val.null
        = (if subIn "Pers" (ns.getD i "") then Val.str (pyStr (r.getD i Val.null))
            else r.getD i Val.null) := by
  induction ns with
  | nil =>
      intro r i _ hi
      exact absurd hi (Nat.not_lt_zero i)
  | cons n ns ih =>
      intro r i hlen hi
      cases r with
      | nil => simp at hlen
      | cons v vs =>
          cases i with
          | zero => simp [stringifyRow]
          | succ j =>
              simp only [stringifyRow, List.getD_cons_succ]
              exact ih vs j (by simpa using hlen) (Nat.lt_of_succ_lt_succ hi)

/-- C9: pre-processing keeps the column names, coerces every value of
every column whose name contains the case-sensitive substring `"Pers"`
to its Python string form (`NaN` becomes `"nan"`), leaves every other
column's values unchanged, and runs before detection and filtering:
the filtered table of the pipeline is built from `preprocess t` and
the roles are detected on its names. -/
theorem preprocess_spec (t : Table)
    (hwf : ∀ r ∈ t.rows, r.length = t.names.length)
    (i : Nat) (hi : i < t.names.length) :
    (preprocess t).names = t.names ∧
    (subIn "Pers" (t.names.getD i "") = true →
        colAt (preprocess t) i = (colAt t i).map (fun v => Val.str (pyStr v))) ∧
    (subIn "Pers" (t.names.getD i "") = false →
        colAt (preprocess t) i = colAt t i) ∧
    (∀ ds js gs, coreTable t ds js gs =
        applyFilterIf
          (applyFilterIf
            (applyFilterIf (preprocess t)
              (detect_department_column (preprocess t).names) ds)
            (detect_job_family_column (preprocess t).names) js)
          (detect_employee_group_column (preprocess t).names) gs) := by
  refine ⟨rfl, ?_, ?_, fun ds js gs => rfl⟩
  · intro hp
    unfold preprocess colAt
    simp only [List.map_map]
    apply List.map_congr_left
    intro r hr
    have := stringifyRow_getD t.names r i (hwf r hr) hi
    simp only [Function.comp_apply]
    rw [this, if_pos hp]
  · intro hp
    unfold preprocess colAt
    simp only [List.map_map]
    apply List.map_congr_left
    intro r hr
    have := stringifyRow_getD t.names r i (hwf r hr) hi
    simp only [Function.comp_apply]
    rw [this, if_neg (by rw [hp]; exact Bool.false_ne_true)]

/-- Witness for C9 at `tPers`: the `"Pers.No."` column (index 0)
becomes `["12", "nan"]` while the department column (index 1) is
untouched. -/
theorem preprocess_spec_witness :
    colAt (preprocess tPers) 0 = (colAt tPers 0).map (fun v => Val.str (pyStr v)) ∧
    colAt (preprocess tPers) 1 = colAt tPers 1 :=
  ⟨(preprocess_spec tPers (by decide) 0 (by decide)).2.1 (by decide),
    (preprocess_spec tPers (by decide) 1 (by decide)).2.2.1 (by decide)⟩

/- ----------------------------------------------------------------
C10: `load_data` accepts exactly the lowercase extensions and reports
everything else.
---------------------------------------------------------------- -/

/-- C10: `load_data` returns a table only when the file name ends with
the exact lowercase `".csv"`, `".xlsx"` or `".xls"`; any other name —
uppercase variants such as `".CSV"` included, even though the upload
widget accepts them — is reported as an unsupported format with no
table; and a reader exception is caught and reported with no table. -/
theorem load_data_spec (name : String) (readCsv readExcel : Except String Table) :
    (∀ t, load_data name readCsv readExcel = .ok t →
        endsWithStr name ".csv" = true ∨ endsWithStr name ".xlsx" = true ∨
          endsWithStr name ".xls" = true) ∧
    (endsWithStr name ".csv" = false → endsWithStr name ".xlsx" = false →
        endsWithStr name ".xls" = false →
        load_data name readCsv readExcel = .unsupported name) ∧
    (∀ m, endsWithStr name ".csv" = true → readCsv = .error m →
        load_data name readCsv readExcel = .parseFailed m) ∧
    (∀ m, endsWithStr name ".csv" = false →
        (endsWithStr name ".xlsx" = true ∨ endsWithStr name ".xls" = true) →
        readExcel = .error m →
        load_data name readCsv readExcel = .parseFailed m) := by
  refine ⟨?_, ?_, ?_, ?_⟩
  · intro tb hok
    by_cases h1 : endsWithStr name ".csv" = true
    · exact Or.inl h1
    by_cases h2 : endsWithStr name ".xlsx" = true
    · exact Or.inr (Or.inl h2)
    by_cases h3 : endsWithStr name ".xls" = true
    · exact Or.inr (Or.inr h3)
    exfalso
    have h1f : endsWithStr name ".csv" = false := by
      revert h1; cases endsWithStr name ".csv" <;> simp
    have h2f : endsWithStr name ".xlsx" = false := by
      revert h2; cases endsWithStr name ".xlsx" <;> simp
    have h3f : endsWithStr name ".xls" = false := by
      revert h3; cases endsWithStr name ".xls" <;> simp
    unfold load_data at hok
    rw [if_neg (by simp [h1f]), if_neg (by simp [h2f, h3f])] at hok
    simp at hok
  · intro h1 h2 h3
    unfold load_data
    rw [if_neg (by simp [h1]), if_neg (by simp [h2, h3])]
  · intro m h1 hr
    unfold load_data
    rw [if_pos h1, hr]
  · intro m h1 h2 hr
    unfold load_data
    rw [if_neg (by simp [h1]), if_pos (by rcases h2 with h | h <;> simp [h]), hr]

/-- Witness for C10: the uppercase name `"data.CSV"` is rejected as
unsupported even with a healthy reader, and a CSV reader exception is
reported as a load error. -/
theorem load_data_spec_witness :
    load_data "data.CSV" (.ok tJoin) (.ok tJoin) = .unsupported "data.CSV" ∧
    load_data "bad.csv" (.error "boom") (.ok tJoin) = .parseFailed "boom" :=
  ⟨(load_data_spec "data.CSV" (.ok tJoin) (.ok tJoin)).2.1
      (by decide) (by decide) (by decide),
    (load_data_spec "bad.csv" (.error "boom") (.ok tJoin)).2.2.1 "boom"
      (by decide) rfl⟩
